import Mathlib

/-!
Verification of the rcommit tool (src/main.rs): a shallow embedding of its
argument handling, diff-collection pipeline, prompt rendering, and output
formatting, together with theorems settling the specification's claims.
-/

namespace RCommit

/-- The single-quote character (ASCII 39) used by the generated shell pipeline. -/
def squote : Char := Char.ofNat 39

/-- The single-quote character as a one-character string. -/
def squoteStr : String := String.singleton squote

/-- The double-quote character (ASCII 34). -/
def dquote : Char := Char.ofNat 34

/-- The backslash character (ASCII 92). -/
def bslash : Char := Char.ofNat 92

/-- The `OpenAIModel` variants used by `parse_model_argument` in src/main.rs. -/
inductive OpenAIModel where
  | Gpt35
  | Gpt4
  | Gpt4Turbo
deriving DecidableEq, Repr

/-- Embedding of `parse_model_argument` (src/main.rs:73-80). The
`unreachable!` panic branch is embedded as `none`. -/
def parse_model_argument : String → Option OpenAIModel
  | "gpt3.5" => some OpenAIModel.Gpt35
  | "gpt4" => some OpenAIModel.Gpt4
  | "gpt4-turbo" => some OpenAIModel.Gpt4Turbo
  | _ => none

/-- The `possible_values` list that src/main.rs:59 hands to clap for the
model option (short `-m`, long `--model`). -/
def modelPossibleValues : List String := ["gpt3.5", "gpt4", "gpt4-turbo"]

/-- The `default_value` of the model option (src/main.rs:60). -/
def modelDefault : String := "gpt3.5"

/-- One `grep -vE '^file$'` fragment, as produced by the `format!` calls in
`execute_git_diff_command` (src/main.rs:83-89): the file pattern is spliced
verbatim between a literal `'^` and a literal `$'`. -/
def grepFragment (file : String) : String :=
  "grep -vE " ++ squoteStr ++ "^" ++ file ++ "$" ++ squoteStr

/-- Embedding of the `excludes.iter().fold(...)` in src/main.rs:83-89 that
chains the grep filters with pipes. -/
def exclude_pattern (excludes : List String) : String :=
  excludes.foldl
    (fun acc file =>
      if acc.isEmpty then grepFragment file
      else acc ++ " | " ++ grepFragment file)
    ""

/-- The `git diff --cached --name-only --diff-filter=ACM` listing command at
the head of the generated pipeline (src/main.rs:92). -/
def gitListCmd : String := "git diff --cached --name-only --diff-filter=ACM"

/-- The `while read -r file; do ...; done` tail of the generated pipeline
(src/main.rs:92), with the same single-quoted `sed` substitution. -/
def whileLoopCmd : String :=
  "while read -r file; do echo \"\\n---------------------------\\n name:$file\"; git diff --cached \"$file\" | sed "
    ++ squoteStr ++ "s/^/+/" ++ squoteStr ++ "; done"

/-- Embedding of the `shell_command` string built in src/main.rs:91-98. -/
def shell_command (excludes : List String) : String :=
  if (exclude_pattern excludes).isEmpty then
    gitListCmd ++ " | " ++ whileLoopCmd
  else
    gitListCmd ++ " | " ++ exclude_pattern excludes ++ " | " ++ whileLoopCmd

/-- Anchored POSIX extended-regular-expression match, as performed by the
collaborator `grep -vE` on the anchored pattern `^p$` (the code's generated
pipeline, src/main.rs:85-87).  Restricted to the regex subset exercised here:
literal characters and the `.` metacharacter, which matches any single
character; all other characters match only themselves. -/
def ereMatchChars : List Char → List Char → Bool
  | [], [] => true
  | [], _ :: _ => false
  | _ :: _, [] => false
  | p :: ps, c :: cs => (p == '.' || p == c) && ereMatchChars ps cs

/-- `grepAnchoredMatch p s` is true when `grep -E` considers the line `s`
matched by the anchored pattern `^p$`. -/
def grepAnchoredMatch (pat s : String) : Bool :=
  ereMatchChars pat.data s.data

/-- The staged-file name listing after the chained `grep -vE '^p$'` filters:
each pattern in order removes every line the anchored regex matches
(src/main.rs:83-95). -/
def survivingNames (excludes : List String) (names : List String) : List String :=
  excludes.foldl (fun fs p => fs.filter (fun f => !(grepAnchoredMatch p f))) names

/-- The `sed 's/^/+/'` substitution on one line: it inserts `+` at the start
of the line (the empty-string anchor `^` is replaced, nothing is deleted). -/
def sedPlusLine (l : String) : String := String.mk ('+' :: l.data)

/-- `sed 's/^/+/'` applied to a whole diff segment, line by line. -/
def sedPlus (lines : List String) : List String := lines.map sedPlusLine

/-- Stripping exactly one leading `+` from a line (the round-trip direction
of the spec's cosmetic-prefix property). -/
def stripOnePlus (l : String) : String :=
  match l.data with
  | '+' :: t => String.mk t
  | _ => l

/-- Whether a line starts with the `+` character. -/
def headIsPlus (l : String) : Bool :=
  match l.data with
  | c :: _ => c == '+'
  | [] => false

/-- The header block the pipeline's `echo "\n---------------------------\n name:$file"`
emits for one file (sh's echo interprets the `\n` escapes): an empty line, a
dash rule, and the ` name:` line. -/
def headerLines (file : String) : List String :=
  ["", "---------------------------", " name:" ++ file]

/-- One per-file block of the collector output: the header followed by the
file's staged diff with every line prefixed by `+` (src/main.rs:92). -/
def fileBlock (file : String) (diffLines : List String) : List String :=
  headerLines file ++ sedPlus diffLines

/-- Error kinds surfaced by `execute_git_diff_command`: spawn failure
(`spawn()?`), missing stdout handle (`ok_or_else`), a read error or a
non-UTF8 byte sequence from `BufRead::lines` (src/main.rs:100-113). -/
inductive IOErrKind where
  | spawnFailure
  | stdoutCaptureFailure
  | readFailure
  | invalidUtf8
deriving DecidableEq, Repr

instance {ε α : Type} [DecidableEq ε] [DecidableEq α] : DecidableEq (Except ε α) := fun x y =>
  match x, y with
  | Except.ok a, Except.ok b => decidable_of_iff (a = b) (by simp)
  | Except.error a, Except.error b => decidable_of_iff (a = b) (by simp)
  | Except.ok _, Except.error _ => isFalse (fun q => Except.noConfusion q)
  | Except.error _, Except.ok _ => isFalse (fun q => Except.noConfusion q)

/-- The outcome of spawning `sh -c <command>` and capturing its stdout:
either the spawn fails, stdout cannot be captured, or a stream of line reads
is produced in which each element is a line or a read error (a non-UTF8
sequence surfaces as `invalidUtf8`). -/
inductive SpawnOutcome where
  | spawnErr
  | noStdout
  | streamed (lns : List (Except IOErrKind String))
deriving DecidableEq

/-- Embedding of `reader.lines().collect::<Result<Vec<String>, _>>()`
(src/main.rs:109-111): the whole list of lines, or the first error. -/
def collectLines : List (Except IOErrKind String) → Except IOErrKind (List String)
  | [] => Except.ok []
  | Except.error e :: _ => Except.error e
  | Except.ok l :: rest => (collectLines rest).map (fun ls => l :: ls)

/-- Embedding of `execute_git_diff_command` (src/main.rs:82-113): build the
shell command, spawn it through the environment's `sh -c`, and either
propagate the failure or join the collected lines with newlines. -/
def execute_git_diff_command (excludes : List String)
    (spawn : String → SpawnOutcome) : Except IOErrKind String :=
  match spawn (shell_command excludes) with
  | SpawnOutcome.spawnErr => Except.error IOErrKind.spawnFailure
  | SpawnOutcome.noStdout => Except.error IOErrKind.stdoutCaptureFailure
  | SpawnOutcome.streamed lns =>
      (collectLines lns).map (fun lines => String.intercalate "\n" lines)

/-- The left-brace character (ASCII 123). -/
def lbrace : Char := Char.ofNat 123

/-- The right-brace character (ASCII 125). -/
def rbrace : Char := Char.ofNat 125

/-- The literal jinja2 template passed to `template_jinja2!` in
src/main.rs:123-128, exactly as the raw string has it: a leading newline,
four-space indents, the `Some context about the changes:` line, a trailing
space after `File changes:`, and a trailing newline plus four spaces. -/
def templateText : String :=
  "\n    Create a conventional commit message for the following changes.\n    Some context about the changes: \x7b\x7bcontext\x7d\x7d\n    File changes: \n        \x7b\x7binput\x7d\x7d\n    "

/-- Scanner state of the one-pass jinja2 placeholder substitution: plain
text, one `{` seen, inside a `\x7b\x7bname\x7d\x7d` placeholder, or one `}` seen inside a
placeholder. -/
inductive JState where
  | text
  | sawL
  | inVar (acc : List Char)
  | sawR (acc : List Char)

/-- One-pass jinja2 placeholder substitution over the template characters.
A `\x7b\x7bname\x7d\x7d` occurrence is replaced by the bound value verbatim (the value
is never rescanned, matching the renderer: the diff is inserted as a value,
not reparsed as template source); every other character is copied. -/
def jsubstAux (vars : List (String × String)) : JState → List Char → String
  | JState.text, [] => ""
  | JState.sawL, [] => String.singleton lbrace
  | JState.inVar acc, [] => String.mk (lbrace :: lbrace :: acc)
  | JState.sawR acc, [] => String.mk (lbrace :: lbrace :: acc ++ [rbrace])
  | JState.text, c :: rest =>
      if c = lbrace then jsubstAux vars JState.sawL rest
      else String.singleton c ++ jsubstAux vars JState.text rest
  | JState.sawL, c :: rest =>
      if c = lbrace then jsubstAux vars (JState.inVar []) rest
      else String.singleton lbrace ++ String.singleton c ++ jsubstAux vars JState.text rest
  | JState.inVar acc, c :: rest =>
      if c = rbrace then jsubstAux vars (JState.sawR acc) rest
      else jsubstAux vars (JState.inVar (acc ++ [c])) rest
  | JState.sawR acc, c :: rest =>
      if c = rbrace then
        ((vars.lookup (String.mk acc)).getD "") ++ jsubstAux vars JState.text rest
      else jsubstAux vars (JState.inVar (acc ++ [rbrace, c])) rest

/-- Render a jinja2 template by substituting its placeholders from `vars`. -/
def substJinja (vars : List (String × String)) (tmpl : String) : String :=
  jsubstAux vars JState.text tmpl.data

/-- The prompt the chain submits for a given context and diff: the fixed
template with `context` and `input` bound, exactly as `prompt_args!` does in
src/main.rs:136-140. -/
def renderPrompt (context diff : String) : String :=
  substJinja [("input", diff), ("context", context)] templateText

/-- The template the specification claims, under its own words: the flat
sentence with `Context:` and `File changes:` and nothing else.  Stated from
the spec, to be compared with the source's `templateText` rendering. -/
def claimedPromptTemplate (context diff : String) : String :=
  "Create a conventional commit message for the following changes. Context: "
    ++ context ++ ". File changes: " ++ diff

/-- Embedding of `commit_message.replace("\"", "\\\"")` (src/main.rs:23):
every double-quote character is replaced by backslash-quote. -/
def escapeQuotesChars : List Char → List Char
  | [] => []
  | c :: rest =>
      if c = dquote then bslash :: dquote :: escapeQuotesChars rest
      else c :: escapeQuotesChars rest

/-- `replace("\"", "\\\"")` at the string level. -/
def escapeQuotes (s : String) : String := String.mk (escapeQuotesChars s.data)

/-- Embedding of the `formatter` built in src/main.rs:23:
`format!("git commit -m \"{}\"", commit_message.replace("\"", "\\\""))`. -/
def gitFormatter (msg : String) : String :=
  "git commit -m \"" ++ escapeQuotes msg ++ "\""

/-- The effectful collaborators of one run: the `sh -c` spawn (a function of
the command string) and the chain's LLM call (a function of the model and
the rendered prompt; `Except.error` is the chain returning `Err`). -/
structure Env where
  spawn : String → SpawnOutcome
  llm : OpenAIModel → String → Except Unit String

/-- The observable trace of one run: whether the diff subprocess was
spawned, the prompt submitted to the backend (if any), the text written to
the clipboard (if any), and whether the run ended successfully. -/
structure RunTrace where
  spawnAttempted : Bool
  promptSent : Option String
  clipboard : Option String
  exitOk : Bool
deriving DecidableEq, Repr

/-- Embedding of `main` (src/main.rs:13-31) over explicit collaborators.
clap's `get_matches` (src/main.rs:70) enforces `possible_values` and exits
before the body runs, so an out-of-set model argument yields a terminated
run with nothing spawned; otherwise the body parses the model, collects the
diff (aborting on error), submits the rendered prompt once, and on success
copies either the `git commit -m` formatter or the raw message. -/
def run_main (modelArg context : String) (excludes : List String)
    (gitFlag : Bool) (env : Env) : RunTrace :=
  if modelArg ∈ modelPossibleValues then
    match parse_model_argument modelArg with
    | none => ⟨false, none, none, false⟩
    | some model =>
      match execute_git_diff_command excludes env.spawn with
      | Except.error _ => ⟨true, none, none, false⟩
      | Except.ok diff =>
        let prompt := renderPrompt context diff
        match env.llm model prompt with
        | Except.error _ => ⟨true, some prompt, none, false⟩
        | Except.ok msg =>
            ⟨true, some prompt,
              some (if gitFlag then gitFormatter msg else msg), true⟩
  else
    ⟨false, none, none, false⟩

/-- POSIX word splitting on unquoted spaces with single-quote quoting: the
sh features the generated grep fragments exercise.  Returns `none` when a
single-quoted region is left unterminated. -/
def shWords : List Char → List Char → Bool → Bool → Option (List String)
  | [], acc, started, inQ =>
      if inQ then none
      else if started then some [String.mk acc] else some []
  | c :: rest, acc, started, inQ =>
      if inQ then
        if c = squote then shWords rest acc started false
        else shWords rest (acc ++ [c]) started true
      else if c = squote then shWords rest acc true true
      else if c = ' ' then
        if started then (shWords rest [] false false).map (fun ws => String.mk acc :: ws)
        else shWords rest [] false false
      else shWords rest (acc ++ [c]) true false

/-- Split a shell word sequence, honouring single quotes. -/
def shellSplit (s : String) : Option (List String) :=
  shWords s.data [] false false

/-- The literal text of the template before the context placeholder. -/
def tmplPre : String :=
  "\n    Create a conventional commit message for the following changes.\n    Some context about the changes: "

/-- The literal text of the template between the two placeholders. -/
def tmplMid : String := "\n    File changes: \n        "

/-- The literal text of the template after the input placeholder. -/
def tmplPost : String := "\n    "

/-- An environment whose diff subprocess reports the single line `d` and
whose backend succeeds. -/
def envDiffD : Env :=
  ⟨fun _ => SpawnOutcome.streamed [Except.ok "d"], fun _ _ => Except.ok "msg"⟩

/-- An environment whose diff subprocess emits one good line and then a
non-UTF8 read failure. -/
def envBadLine : Env :=
  ⟨fun _ => SpawnOutcome.streamed [Except.ok "a.txt", Except.error IOErrKind.invalidUtf8],
    fun _ _ => Except.ok "msg"⟩

/-- The completion text of the spec's escaping example. -/
def msgEdge : String := "fix: handle \"edge\" case"

/-- An environment whose diff succeeds and whose backend returns the
escaping example's completion text. -/
def envEdge : Env :=
  ⟨fun _ => SpawnOutcome.streamed [Except.ok "+line"], fun _ _ => Except.ok msgEdge⟩

/-- An environment whose diff succeeds but whose backend call fails. -/
def envLLMFail : Env :=
  ⟨fun _ => SpawnOutcome.streamed [Except.ok "d"], fun _ _ => Except.error ()⟩

/-- An exclude pattern containing single quotes (the characters `a' 'b`):
spliced into the pipeline it terminates the single-quoted grep argument. -/
def brokenPattern : String := "a" ++ squoteStr ++ " " ++ squoteStr ++ "b"

end RCommit

namespace RCommit

/-- The chained grep filters compute a single filter by the conjunction of
the per-pattern tests. -/
theorem survivingNames_eq_filter (excludes : List String) (names : List String) :
    survivingNames excludes names
      = names.filter (fun f => excludes.all (fun p => !(grepAnchoredMatch p f))) := by
  induction excludes generalizing names with
  | nil => simp [survivingNames]
  | cons p ps ih =>
      have h1 : survivingNames (p :: ps) names
          = survivingNames ps (names.filter (fun f => !(grepAnchoredMatch p f))) := rfl
      rw [h1, ih, List.filter_filter]
      apply List.filter_congr
      intro f _
      simp [List.all_cons, Bool.and_comm]

/-- `List.all` is invariant under permutation of the list. -/
theorem perm_all_eq {α : Type} (g : α → Bool) {l₁ l₂ : List α} (h : l₁.Perm l₂) :
    l₁.all g = l₂.all g := by
  cases hb : l₂.all g with
  | true =>
      rw [List.all_eq_true] at hb ⊢
      intro x hx
      exact hb x (h.mem_iff.mp hx)
  | false =>
      rw [Bool.eq_false_iff]
      intro hc
      rw [List.all_eq_true] at hc
      rw [Bool.eq_false_iff] at hb
      exact hb (List.all_eq_true.mpr (fun x hx => hc x (h.mem_iff.mpr hx)))

/-- A read error anywhere in the line stream makes the collected result an
error (the embedding of `collect::<Result<...>>` short-circuiting). -/
theorem collectLines_error_of_mem (lns : List (Except IOErrKind String)) (e : IOErrKind)
    (h : Except.error e ∈ lns) : ∃ e2, collectLines lns = Except.error e2 := by
  induction lns with
  | nil => cases h
  | cons x rest ih =>
      cases x with
      | error e3 => exact ⟨e3, rfl⟩
      | ok l =>
          have hm : Except.error e ∈ rest := by
            cases h with
            | tail _ ht => exact ht
          obtain ⟨e2, he2⟩ := ih hm
          exact ⟨e2, by simp [collectLines, he2, Except.map]⟩

/-- `parse_model_argument` succeeds on every value clap admits. -/
theorem parse_model_isSome_of_mem (m : String) (h : m ∈ modelPossibleValues) :
    (parse_model_argument m).isSome = true := by
  fin_cases h <;> rfl

/-- On patterns free of the `.` metacharacter, the anchored regex match is
exactly character-list equality. -/
theorem ereMatch_literal (ps cs : List Char) (h : ps.all (fun c => c != '.') = true) :
    (ereMatchChars ps cs = true ↔ ps = cs) := by
  induction ps generalizing cs with
  | nil => cases cs <;> simp [ereMatchChars]
  | cons p pt ih =>
      cases cs with
      | nil => simp [ereMatchChars]
      | cons c ct =>
          simp only [List.all_cons, Bool.and_eq_true] at h
          have hne : p ≠ '.' := by simpa using h.1
          have hp : (p == '.') = false := by
            cases hq : p == '.' with
            | false => rfl
            | true => exact absurd (eq_of_beq hq) hne
          simp only [ereMatchChars, hp, Bool.false_or, Bool.and_eq_true, beq_iff_eq,
            ih ct h.2, List.cons_eq_cons]

/-- When the model argument is admitted and the diff collection succeeds
with text `d`, the run reduces to the backend call on the rendered prompt. -/
theorem run_main_of_diff_ok (m c : String) (ex : List String) (g : Bool) (env : Env)
    (mo : OpenAIModel) (d : String)
    (hm : m ∈ modelPossibleValues) (hmo : parse_model_argument m = some mo)
    (hd : execute_git_diff_command ex env.spawn = Except.ok d) :
    run_main m c ex g env =
      match env.llm mo (renderPrompt c d) with
      | Except.error _ => ⟨true, some (renderPrompt c d), none, false⟩
      | Except.ok msg =>
          ⟨true, some (renderPrompt c d),
            some (if g then gitFormatter msg else msg), true⟩ := by
  unfold run_main
  rw [if_pos hm, hmo, hd]

/-- When the model argument is admitted but the diff collection fails, the
run aborts with nothing sent and nothing written. -/
theorem run_main_of_diff_error (m c : String) (ex : List String) (g : Bool) (env : Env)
    (mo : OpenAIModel) (e : IOErrKind)
    (hm : m ∈ modelPossibleValues) (hmo : parse_model_argument m = some mo)
    (hd : execute_git_diff_command ex env.spawn = Except.error e) :
    run_main m c ex g env = ⟨true, none, none, false⟩ := by
  unfold run_main
  rw [if_pos hm, hmo, hd]

/-- C1 (amended): the Diff Collector removes a file name from the listing
iff the name matches some exclude pattern as an anchored POSIX extended
regular expression (`grep -vE` on `^p$`) — an anchored full-name regex
match, not exact string equality; a file matching no pattern is never
removed. -/
theorem c1_exclude_anchored_regex :
    ∀ (E names : List String) (f : String),
      f ∈ survivingNames E names ↔ (f ∈ names ∧ ∀ p ∈ E, grepAnchoredMatch p f = false) := by
  intro E names f
  rw [survivingNames_eq_filter]
  simp [List.mem_filter, List.all_eq_true, Bool.not_eq_true']

/-- C1 (counterexample): with exclude pattern `a.txt`, the file `astxt`,
which is not exactly equal to the pattern, is nevertheless removed — the
`.` is a regex metacharacter, refuting exact-equality removal. -/
theorem c1_counterexample :
    survivingNames ["a.txt"] ["astxt"] = [] ∧ "astxt" ≠ "a.txt" := by decide

set_option maxRecDepth 8192 in
/-- C2 (amended): the rendered prompt is exactly the source's jinja2
template text — leading newline and indentation, the wording `Some context
about the changes:`, a trailing space after `File changes:` — with the
context and diff substituted verbatim and no other text; that prompt is
what a run with a successful diff submits. -/
theorem c2_prompt_template :
    (∀ c d : String, renderPrompt c d = tmplPre ++ (c ++ (tmplMid ++ (d ++ tmplPost)))) ∧
    (∀ (m c : String) (ex : List String) (g : Bool) (env : Env) (d : String),
      m ∈ modelPossibleValues →
      execute_git_diff_command ex env.spawn = Except.ok d →
      (run_main m c ex g env).promptSent = some (renderPrompt c d)) := by
  constructor
  · intro c d
    rfl
  · intro m c ex g env d hm hd
    obtain ⟨mo, hmo⟩ := Option.isSome_iff_exists.mp (parse_model_isSome_of_mem m hm)
    rw [run_main_of_diff_ok m c ex g env mo d hm hmo hd]
    cases env.llm mo (renderPrompt c d) <;> rfl

set_option maxRecDepth 8192 in
/-- C2 (counterexample): at context `c` and diff `d`, the prompt a run
submits is the template rendering, and that rendering differs from the flat
template the claim states. -/
theorem c2_counterexample :
    (run_main "gpt3.5" "c" [] false envDiffD).promptSent = some (renderPrompt "c" "d") ∧
      renderPrompt "c" "d" ≠ claimedPromptTemplate "c" "d" := by decide

set_option maxRecDepth 8192 in
/-- C2 (witness): the amended prompt property at a concrete run. -/
theorem c2_witness :
    ("gpt3.5" ∈ modelPossibleValues) ∧
    (execute_git_diff_command [] envDiffD.spawn = Except.ok "d") ∧
    (run_main "gpt3.5" "c" [] false envDiffD).promptSent = some (renderPrompt "c" "d") :=
  ⟨by decide, by decide,
    c2_prompt_template.2 "gpt3.5" "c" [] false envDiffD "d" (by decide) (by decide)⟩

/-- C3: a spawn failure, a missing stdout handle, or any read error or
non-UTF8 sequence in the subprocess output makes `execute_git_diff_command`
return an error, and on any such error the run aborts: no prompt is
submitted, nothing is written to the clipboard, and the run fails — no
partial diff is ever propagated. -/
theorem c3_diff_error_fatal :
    ∀ (m c : String) (ex : List String) (g : Bool) (env : Env),
      (env.spawn (shell_command ex) = SpawnOutcome.spawnErr →
        execute_git_diff_command ex env.spawn = Except.error IOErrKind.spawnFailure) ∧
      (env.spawn (shell_command ex) = SpawnOutcome.noStdout →
        execute_git_diff_command ex env.spawn = Except.error IOErrKind.stdoutCaptureFailure) ∧
      (∀ lns e, env.spawn (shell_command ex) = SpawnOutcome.streamed lns →
        Except.error e ∈ lns →
        ∃ e2, execute_git_diff_command ex env.spawn = Except.error e2) ∧
      (∀ e, execute_git_diff_command ex env.spawn = Except.error e →
        (run_main m c ex g env).promptSent = none ∧
        (run_main m c ex g env).clipboard = none ∧
        (run_main m c ex g env).exitOk = false) := by
  intro m c ex g env
  refine ⟨?_, ?_, ?_, ?_⟩
  · intro h; simp [execute_git_diff_command, h]
  · intro h; simp [execute_git_diff_command, h]
  · intro lns e h1 h2
    obtain ⟨e2, he2⟩ := collectLines_error_of_mem lns e h2
    exact ⟨e2, by simp [execute_git_diff_command, h1, he2, Except.map]⟩
  · intro e he
    by_cases hm : m ∈ modelPossibleValues
    · obtain ⟨mo, hmo⟩ := Option.isSome_iff_exists.mp (parse_model_isSome_of_mem m hm)
      rw [run_main_of_diff_error m c ex g env mo e hm hmo he]
      exact ⟨rfl, rfl, rfl⟩
    · simp [run_main, hm]

/-- C3 (witness): a run whose subprocess stream ends in a non-UTF8 read
error submits no prompt and writes nothing. -/
theorem c3_witness :
    (execute_git_diff_command [] envBadLine.spawn = Except.error IOErrKind.invalidUtf8) ∧
    ((run_main "gpt3.5" "no context" [] false envBadLine).promptSent = none ∧
      (run_main "gpt3.5" "no context" [] false envBadLine).clipboard = none ∧
      (run_main "gpt3.5" "no context" [] false envBadLine).exitOk = false) :=
  ⟨by decide,
    (c3_diff_error_fatal "gpt3.5" "no context" [] false envBadLine).2.2.2
      IOErrKind.invalidUtf8 (by decide)⟩

/-- C4: with the git flag set the clipboard payload is exactly
`git commit -m "<t>"` with every double quote of the completion text `t`
prefixed by a backslash; without the flag the payload is `t` unchanged. -/
theorem c4_output_sink :
    ∀ (m c : String) (ex : List String) (env : Env) (t d : String),
      m ∈ modelPossibleValues →
      execute_git_diff_command ex env.spawn = Except.ok d →
      (∀ mo p, env.llm mo p = Except.ok t) →
      (run_main m c ex true env).clipboard = some (gitFormatter t) ∧
      (run_main m c ex false env).clipboard = some t := by
  intro m c ex env t d hm hd hllm
  obtain ⟨mo, hmo⟩ := Option.isSome_iff_exists.mp (parse_model_isSome_of_mem m hm)
  constructor
  · rw [run_main_of_diff_ok m c ex true env mo d hm hmo hd, hllm mo (renderPrompt c d)]
    rfl
  · rw [run_main_of_diff_ok m c ex false env mo d hm hmo hd, hllm mo (renderPrompt c d)]
    rfl

/-- C4 (witness): the spec's example — completion `fix: handle "edge" case`
becomes `git commit -m "fix: handle \"edge\" case"` with the flag, and is
passed through byte for byte without it. -/
theorem c4_witness :
    ("gpt3.5" ∈ modelPossibleValues) ∧
    (execute_git_diff_command [] envEdge.spawn = Except.ok "+line") ∧
    (∀ mo p, envEdge.llm mo p = Except.ok msgEdge) ∧
    (run_main "gpt3.5" "c" [] true envEdge).clipboard
      = some "git commit -m \"fix: handle \\\"edge\\\" case\"" ∧
    (run_main "gpt3.5" "c" [] false envEdge).clipboard = some msgEdge := by
  refine ⟨by decide, by decide, fun _ _ => rfl, ?_, ?_⟩
  · have h := (c4_output_sink "gpt3.5" "c" [] envEdge msgEdge "+line"
      (by decide) (by decide) (fun _ _ => rfl)).1
    rw [h]; decide
  · exact (c4_output_sink "gpt3.5" "c" [] envEdge msgEdge "+line"
      (by decide) (by decide) (fun _ _ => rfl)).2

/-- C5 (amended): every line the collector emits for a file's diff segment
begins with `+`, and stripping exactly one leading `+` from every emitted
line reproduces the original diff segment exactly — the original
`+`, `-` and space markers are preserved (shifted one position), not
overwritten: `sed` inserts at `^`, deleting nothing. -/
theorem c5_plus_roundtrip :
    ∀ lines : List String,
      ((sedPlus lines).all headIsPlus) = true ∧ (sedPlus lines).map stripOnePlus = lines := by
  intro lines
  constructor
  · exact List.all_eq_true.mpr (fun l hl => by
      obtain ⟨l0, _, rfl⟩ := List.mem_map.mp hl
      rfl)
  · rw [sedPlus, List.map_map]
    have hcomp : stripOnePlus ∘ sedPlusLine = id := funext (fun l => rfl)
    rw [hcomp, List.map_id]

/-- C5 (counterexample): the deletion line `-old` is emitted as `+-old`;
stripping one `+` yields `-old` with its original marker intact, not the
marker-overwritten `old` the claim describes. -/
theorem c5_counterexample :
    sedPlusLine "-old" = "+-old" ∧ stripOnePlus (sedPlusLine "-old") = "-old" ∧
      stripOnePlus (sedPlusLine "-old") ≠ "old" := by decide

/-- C6: when every backend call fails, the run terminates unsuccessfully
and nothing is ever written to the clipboard. -/
theorem c6_backend_failure_no_output :
    ∀ (m c : String) (ex : List String) (g : Bool) (env : Env),
      (∀ mo p, env.llm mo p = Except.error ()) →
      (run_main m c ex g env).clipboard = none ∧
      (run_main m c ex g env).exitOk = false := by
  intro m c ex g env hfail
  by_cases hm : m ∈ modelPossibleValues
  · obtain ⟨mo, hmo⟩ := Option.isSome_iff_exists.mp (parse_model_isSome_of_mem m hm)
    cases hd : execute_git_diff_command ex env.spawn with
    | error e =>
        rw [run_main_of_diff_error m c ex g env mo e hm hmo hd]
        exact ⟨rfl, rfl⟩
    | ok d =>
        rw [run_main_of_diff_ok m c ex g env mo d hm hmo hd, hfail mo (renderPrompt c d)]
        exact ⟨rfl, rfl⟩
  · simp [run_main, hm]

/-- C6 (witness): a concrete failing backend leaves the clipboard untouched
and the run failed. -/
theorem c6_witness :
    (∀ mo p, envLLMFail.llm mo p = Except.error ()) ∧
    (run_main "gpt4" "c" [] true envLLMFail).clipboard = none ∧
    (run_main "gpt4" "c" [] true envLLMFail).exitOk = false :=
  ⟨fun _ _ => rfl, c6_backend_failure_no_output "gpt4" "c" [] true envLLMFail (fun _ _ => rfl)⟩

/-- C7: a model argument outside the admitted set terminates the run during
argument parsing — the diff subprocess is never spawned, no prompt is
submitted, nothing reaches the clipboard, and the exit is a failure. -/
theorem c7_invalid_model_rejected :
    ∀ (m c : String) (ex : List String) (g : Bool) (env : Env),
      m ∉ modelPossibleValues →
      run_main m c ex g env = ⟨false, none, none, false⟩ := by
  intro m c ex g env hm
  simp [run_main, hm]

/-- C7 (witness): `-m bogus` is rejected before any subprocess or network
activity. -/
theorem c7_witness :
    ("bogus" ∉ modelPossibleValues) ∧
      run_main "bogus" "c" [] false envDiffD = ⟨false, none, none, false⟩ :=
  ⟨by decide, c7_invalid_model_rejected "bogus" "c" [] false envDiffD (by decide)⟩

/-- C8: applying the exclude filters in any permutation of the pattern list
leaves the same surviving listing — each pattern's removal is an independent
line test, so the composed filter is order-insensitive. -/
theorem c8_order_insensitive :
    ∀ (E1 E2 names : List String), E1.Perm E2 →
      survivingNames E1 names = survivingNames E2 names := by
  intro E1 E2 names h
  rw [survivingNames_eq_filter, survivingNames_eq_filter]
  exact List.filter_congr (fun f _ => perm_all_eq _ h)

/-- C8 (witness): swapping two patterns leaves the surviving listing
unchanged on a concrete staged-file set. -/
theorem c8_witness :
    List.Perm ["a.txt", "b.txt"] ["b.txt", "a.txt"] ∧
      survivingNames ["a.txt", "b.txt"] ["a.txt", "c.txt"]
        = survivingNames ["b.txt", "a.txt"] ["a.txt", "c.txt"] :=
  ⟨List.Perm.swap "b.txt" "a.txt" [],
    c8_order_insensitive _ _ _ (List.Perm.swap "b.txt" "a.txt" [])⟩

/-- C9: each exclude pattern is spliced verbatim, unescaped, between single
quotes into the grep fragment; a pattern containing single quotes (here
`a' 'b`) terminates the quoted context, so the argument grep receives is
`^a` — part of the pattern is consumed as shell quoting and word splitting
instead of reaching grep as the filter argument — while a quote-free
pattern arrives intact as `^foo.txt$`. -/
theorem c9_quote_splice :
    (∀ p : String, exclude_pattern [p] = grepFragment p ∧
      (grepFragment p).data
        = "grep -vE ".data ++ [squote, '^'] ++ p.data ++ ['$', squote]) ∧
    shellSplit (exclude_pattern ["foo.txt"]) = some ["grep", "-vE", "^foo.txt$"] ∧
    shellSplit (exclude_pattern [brokenPattern]) = some ["grep", "-vE", "^a", "b$"] ∧
    "^a" ≠ "^" ++ brokenPattern ++ "$" := by
  refine ⟨?_, by decide, by decide, by decide⟩
  intro p
  refine ⟨rfl, ?_⟩
  simp [grepFragment, squoteStr]

/-- C10: `parse_model_argument` returns a model for each of the three
strings clap admits — its `unreachable!` branch is dead under the
call site's precondition — and the configured default `gpt3.5` is admitted
and parses to `Gpt35`. -/
theorem c10_parse_model_total :
    (∀ s : String, s ∈ modelPossibleValues → (parse_model_argument s).isSome = true) ∧
      modelDefault ∈ modelPossibleValues ∧
      parse_model_argument modelDefault = some OpenAIModel.Gpt35 :=
  ⟨parse_model_isSome_of_mem, by decide, rfl⟩

/-- C10 (witness): the parse succeeds at the admitted value `gpt4-turbo`. -/
theorem c10_witness :
    ("gpt4-turbo" ∈ modelPossibleValues) ∧ (parse_model_argument "gpt4-turbo").isSome = true :=
  ⟨by decide, c10_parse_model_total.1 "gpt4-turbo" (by decide)⟩

end RCommit
